import Mathlib

/-!
Verification development for the librus-python HTML extraction layer.

The repository is a scraper for a school web portal: it fetches server-rendered
HTML pages and turns fixed table layouts into dictionaries.  This file gives a
shallow embedding of the extraction routines of

  - src/librus_python/api.py        (Librus.map_table_values, Librus.get_file,
                                     Librus._handle_redirects, Librus.make_request)
  - src/librus_python/resources/absence.py (Absence.table_mapper, Absence.get_absence,
                                     Absence.make_boolean)
  - src/librus_python/resources/grade.py   (Grade.parser, Grade.process_grade,
                                     Grade.parse_title, Grade.get_grades)
  - src/librus_python/resources/inbox.py   (Inbox._get_confirm_message, Inbox.get_message,
                                     Inbox.remove_message, Inbox.list_inbox,
                                     Inbox.list_receivers, Inbox.list_announcements)

and proves or refutes the frozen specification claims about them.

Modelling conventions, used throughout:
  - Python `str` is Lean `String`; character-level operations (`split`, `strip`,
    `lower`, the `in` substring test) are implemented on `List Char` exactly as
    Python defines them for the inputs the program uses (ASCII lowercasing and
    the four common whitespace characters suffice for every string the program
    compares; Python's wider Unicode tables are never exercised by it).
  - A parsed document enters each routine only through the result of the fixed
    CSS query that routine performs, so a routine is embedded as a function of
    that query result: a selected two-column table is `Option (List (List String))`
    (`none` when `select_one` finds nothing; otherwise the `tr` rows in document
    order, each row the raw `.text` of its `td` cells in order).
  - Python `dict` built by repeated assignment is an insertion-ordered
    association list with overwrite-in-place insertion.
  - A Python function that can raise is embedded with result `Except PyErr _`;
    a function none of whose operations can raise is embedded as a total
    function returning its value directly.
  - `requests` transport failures: `Librus.make_request` catches every transport
    error and returns `None` (api.py lines 139-165), so a fetched page is
    `Option Doc`, `none` for a failed request.
-/

/-- Python exception kinds raised by the embedded code, tagged with the message
where the source attaches a specific one. -/
inductive PyErr where
  | valueError (msg : String)
  | attributeError
  | keyError
  | indexError
  | typeError
  | exception (msg : String)
  deriving DecidableEq, Repr

/-- Python `str.strip()` on a character list: drop whitespace from both ends. -/
def pyStripL (s : List Char) : List Char :=
  ((s.dropWhile Char.isWhitespace).reverse.dropWhile Char.isWhitespace).reverse

/-- Python `str.strip()`: remove leading and trailing whitespace. -/
def pyStrip (s : String) : String :=
  (pyStripL s.toList).asString

/-- Python `str.strip(chars)` for a single character: drop that character from
both ends (used for `.strip("/")` in inbox attachment paths). -/
def pyStripChar (c : Char) (s : List Char) : List Char :=
  ((s.dropWhile (· = c)).reverse.dropWhile (· = c)).reverse

/-- Python `str.lower()` (ASCII case fold; the program only lowercases ASCII). -/
def pyLower (s : String) : String :=
  (s.toList.map Char.toLower).asString

/-- Index of the first occurrence of `sep` as a contiguous sublist of `s`,
scanning left to right; `none` when `sep` does not occur. -/
def findOccur (sep : List Char) : List Char → Option Nat
  | [] => none
  | c :: rest =>
    if sep.isPrefixOf (c :: rest) then some 0
    else (findOccur sep rest).map (· + 1)

/-- Python `needle in haystack` substring test (`""` is in every string). -/
def pyContains (haystack needle : String) : Bool :=
  needle.toList.isEmpty || (findOccur needle.toList haystack.toList).isSome

/-- Fuel-driven worker for `splitSub`: cut at the first occurrence of `sep`
and recurse on the remainder.  Each recursive call drops at least one character
(the program only splits on non-empty separators), so fuel `s.length + 1` is
always sufficient; structural recursion on the fuel keeps the definition
kernel-computable. -/
def splitSubF (sep : List Char) : Nat → List Char → List (List Char)
  | _, [] => [[]]
  | 0, s => [s]
  | fuel + 1, c :: rest =>
    match findOccur sep (c :: rest) with
    | none => [c :: rest]
    | some i =>
      (c :: rest).take i :: splitSubF sep fuel ((c :: rest).drop (i + sep.length))

/-- Python `s.split(sep)` for a non-empty separator: split on non-overlapping
occurrences scanned left to right; adjacent separators yield empty segments. -/
def splitSub (sep : List Char) (s : List Char) : List (List Char) :=
  splitSubF sep (s.length + 1) s

/-- Python `s.split(sep, 1)` for a one-character separator, as used by
`part.split(":", 1)`: `none` when the separator does not occur (where Python's
two-name unpacking raises `ValueError`), otherwise the pieces before and after
the first occurrence. -/
def splitFirstChar (sep : Char) : List Char → Option (List Char × List Char)
  | [] => none
  | c :: rest =>
    if c = sep then some ([], rest)
    else (splitFirstChar sep rest).map (fun p => (c :: p.1, p.2))

/-- Python `int(s)`: strip whitespace, accept an optional sign followed by one
or more digits, raise `ValueError` otherwise.  (Python further allows grouping
underscores; no input of this program carries them.) -/
def pyInt (s : String) : Except PyErr Int :=
  let t := pyStripL s.toList
  let signed : Int × List Char :=
    match t with
    | '-' :: rest => (-1, rest)
    | '+' :: rest => (1, rest)
    | _ => (1, t)
  if signed.2 ≠ [] ∧ signed.2.all Char.isDigit then
    .ok (signed.1 * (signed.2.foldl (fun n c => n * 10 + (c.toNat - 48)) 0 : Nat))
  else
    .error (.valueError "invalid literal for int() with base 10")

instance {ε α : Type} [DecidableEq ε] [DecidableEq α] :
    DecidableEq (Except ε α) := fun x y =>
  match x, y with
  | .ok a, .ok b =>
    if h : a = b then isTrue (by rw [h]) else isFalse (by simp [h])
  | .error a, .error b =>
    if h : a = b then isTrue (by rw [h]) else isFalse (by simp [h])
  | .ok _, .error _ => isFalse (fun hc => Except.noConfusion hc)
  | .error _, .ok _ => isFalse (fun hc => Except.noConfusion hc)

/-- A value stored in the absence dictionary: Python mixes strings, `None`
and (after coercion) booleans in the same dict. -/
inductive TVal where
  | str (s : String)
  | none
  | bool (b : Bool)
  deriving DecidableEq, Repr

/-- Python `d[k] = v` on an insertion-ordered dict: overwrite in place when the
key exists, else append. -/
def tDictInsert (d : List (String × TVal)) (k : String) (v : TVal) :
    List (String × TVal) :=
  match d with
  | [] => [(k, v)]
  | (k', v') :: rest =>
    if k' = k then (k', v) :: rest else (k', v') :: tDictInsert rest k v

/-- Python `d.get(key, default)` on the absence dict. -/
def tDictGet (d : List (String × TVal)) (k : String) (dflt : TVal) : TVal :=
  (d.lookup k).getD dflt

/-- Python `d[k] = v` on a string-valued insertion-ordered dict. -/
def strDictInsert (d : List (String × String)) (k v : String) :
    List (String × String) :=
  match d with
  | [] => [(k, v)]
  | (k', v') :: rest =>
    if k' = k then (k', v) :: rest else (k', v') :: strDictInsert rest k v

/-- Python `dict(pairs)`: fold the pairs into an empty dict (later duplicate
keys overwrite the earlier value in place). -/
def strDictOfPairs (pairs : List (String × String)) : List (String × String) :=
  pairs.foldl (fun d p => strDictInsert d p.1 p.2) []

/-- Does a table row (`row.find_all('td')` as cell texts) have a second cell?
Mirrors the guards `len(cells) > 1` / `len(row.find_all('td')) > 1`. -/
def hasSecondCell : List String → Bool
  | _ :: _ :: _ => true
  | _ => false

/-- The stripped text of a row's second cell, `cells[1].text.strip()`; only
evaluated behind a `hasSecondCell` guard in the source. -/
def secondCellText : List String → String
  | _ :: v :: _ => pyStrip v
  | _ => ""

/-- Librus.map_table_values (api.py lines 222-241): from the document's `tr`
rows (each given as its `td` cell texts), keep only rows with at least two
cells, take each survivor's stripped second-cell text, and zip the key list
with that value list into a dict (`dict(zip(keys, values))`, truncating to the
shorter of the two lists).  Every operation used is total, so the embedding
returns the dict directly. -/
def map_table_values (rows : List (List String)) (keys : List String) :
    List (String × String) :=
  let values := (rows.filter hasSecondCell).map secondCellText
  strDictOfPairs (keys.zip values)

/-- Value the strict positional mapper stores for one zipped row:
`cells[1].text.strip() if len(cells) > 1 else None` (absence.py line 168). -/
def rowSecondCellVal : List String → TVal
  | _ :: v :: _ => TVal.str (pyStrip v)
  | _ => TVal.none

/-- The row-processing loop of Absence.table_mapper (absence.py lines 165-169):
fold the zipped (row, key) pairs into the result dict in order. -/
def tMapRows : List (List String × String) → List (String × TVal) →
    List (String × TVal)
  | [], acc => acc
  | (row, key) :: rest, acc =>
    tMapRows rest (tDictInsert acc key (rowSecondCellVal row))

/-- The dict comprehension `{key: None for key in keys}` of absence.py line 163. -/
def tAllNone : List String → List (String × TVal) → List (String × TVal)
  | [], acc => acc
  | k :: ks, acc => tAllNone ks (tDictInsert acc k TVal.none)

/-- Absence.table_mapper (absence.py lines 147-170).  The document and the CSS
selector enter only through `soup.select_one(selector)`, so the embedding takes
that query result: `none` when no table matches, otherwise the table's `tr`
rows as `td` cell-text lists.  If the table is missing, every requested key
maps to `None`; otherwise the rows are zipped with the keys (`zip` truncates to
the shorter list) and each key maps to its row's stripped second-cell text, or
`None` when the row has fewer than two cells.  No operation used can raise. -/
def table_mapper (table : Option (List (List String))) (keys : List String) :
    List (String × TVal) :=
  match table with
  | Option.none => tAllNone keys []
  | some rows => tMapRows (rows.zip keys) []

/-- Absence.make_boolean (absence.py lines 172-185): a string maps to whether
its lowercasing is one of the two affirmative tokens; a non-string falls back
to Python truthiness (`bool(None) = False`, `bool(b) = b`). -/
def make_boolean : TVal → Bool
  | TVal.str s => ["tak", "yes"].contains (pyLower s)
  | TVal.none => false
  | TVal.bool b => b

/-- The eight field names requested by Absence.get_absence (absence.py line 38). -/
def absenceKeys : List String :=
  ["type", "category", "date", "subject", "lesson_hour", "teacher", "trip", "added_by"]

/-- Absence.get_absence after a successful fetch (absence.py lines 38-48): map
the selected table against the 8-field list; if any resulting value is `None`,
remove `"category"` (Python `list.remove`: first occurrence) and re-map once;
finally overwrite `trip` with the boolean coercion of `data.get('trip', 'no')`. -/
def get_absence_body (table : Option (List (List String))) :
    List (String × TVal) :=
  let data := table_mapper table absenceKeys
  let data :=
    if data.any (fun p => p.2 = TVal.none) then
      table_mapper table (absenceKeys.erase "category")
    else data
  tDictInsert data "trip" (TVal.bool (make_boolean (tDictGet data "trip" (TVal.str "no"))))

/-- Absence.get_absence (absence.py lines 22-48): the fetch may fail, in which
case the guard `if not soup: return None` yields `None` before any mapping. -/
def get_absence (soup : Option (Option (List (List String)))) :
    Option (List (String × TVal)) :=
  match soup with
  | Option.none => Option.none
  | some table => some (get_absence_body table)

/-- An HTTP response as Librus._handle_redirects consumes it: just its optional
`Location` header (api.py line 199). -/
structure HttpResponse where
  location : Option String
  deriving DecidableEq, Repr

/-- Librus._handle_redirects (api.py lines 185-203): follow the redirect and
return the fetched body only when a `Location` header is present and its URL
contains `"GetFile"`; otherwise `None`.  The follow-up GET is abstracted as the
function `fetchContent` from URL to body. -/
def handle_redirects {β : Type} (fetchContent : String → β)
    (response : HttpResponse) : Option β :=
  match response.location with
  | some redirect_url =>
    if pyContains redirect_url "GetFile" then some (fetchContent redirect_url)
    else Option.none
  | Option.none => Option.none

/-- Librus.get_file (api.py lines 167-183): issue the initial request with
redirect-following disabled (abstracted as the `response` it returned) and
delegate to `_handle_redirects`. -/
def get_file {β : Type} (fetchContent : String → β) (response : HttpResponse) :
    Option β :=
  handle_redirects fetchContent response

/-- A grade-badge link element (`span.grade-box a`) as Grade's code consumes
it: its `.text`, its optional `title` attribute (`grade['title']` raises
`KeyError` when missing), and its BeautifulSoup truthiness (`if grade` — a Tag
is truthy exactly when it has contents). -/
structure GradeLink where
  textVal : String
  title : Option String
  truthy : Bool
  deriving DecidableEq, Repr

/-- One row selected by Grade.parser: the optional text of its second `td`
(`select_one("td:nth-of-type(2)")` is `None` when absent) and its grade-badge
links in document order. -/
structure GradeRow where
  subjectCell : Option String
  gradeSpans : List GradeLink
  deriving DecidableEq, Repr

/-- One parsed grade: the badge's stripped link text, plus the key/value pairs
parsed out of its advisory `title` string. -/
structure GradeDetail where
  value : String
  info : List (String × String)
  deriving DecidableEq, Repr

/-- One subject's record in the grade overview. -/
structure GradeRecord where
  subject : String
  grades : List GradeDetail
  deriving DecidableEq, Repr

/-- The per-segment loop body of Grade.parse_title (grade.py lines 91-97):
process each segment in order, splitting it on the first colon into a stripped
key and value inserted into the dict; the tuple unpacking
`key, value = part.split(":", 1)` raises `ValueError` when the segment has no
colon. -/
def parseTitleGo : List (List Char) → List (String × String) →
    Except PyErr (List (String × String))
  | [], acc => .ok acc
  | p :: ps, acc =>
    match splitFirstChar ':' p with
    | Option.none => .error (.valueError "not enough values to unpack (expected 2, got 1)")
    | some (k, v) =>
      parseTitleGo ps (strDictInsert acc (pyStripL k).asString (pyStripL v).asString)

/-- Grade.parse_title (grade.py lines 80-97): split the advisory string on the
literal marker `"<br />"`, then fold the segments through `parseTitleGo`. -/
def parse_title (title : String) : Except PyErr (List (String × String)) :=
  parseTitleGo (splitSub "<br />".toList title.toList) []

/-- Grade.process_grade (grade.py lines 63-78): read the link's text and parse
its `title` attribute; a missing attribute raises `KeyError`, and a malformed
title propagates parse_title's `ValueError`. -/
def process_grade (g : GradeLink) : Except PyErr GradeDetail :=
  match g.title with
  | Option.none => .error .keyError
  | some t => (parse_title t).map (fun info => ⟨pyStrip g.textVal, info⟩)

/-- Grade.parser (grade.py lines 36-61): walk the selected rows in order; skip
a row whose subject cell is missing; compute the row's grade list from its
truthy badge links (the first raising link aborts the whole parse, as in the
Python loop); append a record only when the grade list is non-empty. -/
def parser : List GradeRow → Except PyErr (List GradeRecord)
  | [] => .ok []
  | row :: rest =>
    match row.subjectCell with
    | Option.none => parser rest
    | some subj =>
      match (row.gradeSpans.filter (fun g => g.truthy)).mapM process_grade with
      | .error e => .error e
      | .ok grades =>
        match parser rest with
        | .error e => .error e
        | .ok tailRecs =>
          .ok (if grades.isEmpty then tailRecs else ⟨pyStrip subj, grades⟩ :: tailRecs)

/-- Grade.get_grades (grade.py lines 22-34): a failed fetch returns the empty
list before parsing (`if not response: return []`). -/
def get_grades (response : Option (List GradeRow)) :
    Except PyErr (List GradeRecord) :=
  match response with
  | Option.none => .ok []
  | some rows => parser rows

/-- The confirmation-page document as Inbox._get_confirm_message consumes it:
the optional stripped text of the `div.green.container` banner (`none` when
`soup.find` locates no such div, in which case `.get_text` on the `None`
result raises `AttributeError`). -/
structure ConfirmDoc where
  banner : Option String
  deriving DecidableEq, Repr

/-- Inbox._get_confirm_message (inbox.py lines 19-36): dereferencing a missing
soup or a missing banner raises `AttributeError`; a present banner with empty
text raises the explicit `Exception("No confirmation message found")`;
otherwise the banner text is returned. -/
def get_confirm_message (soup : Option ConfirmDoc) : Except PyErr String :=
  match soup with
  | Option.none => .error .attributeError
  | some doc =>
    match doc.banner with
    | Option.none => .error .attributeError
    | some message =>
      if message = "" then .error (.exception "No confirmation message found")
      else .ok message

/-- Inbox.remove_message (inbox.py lines 91-104): POST the deletion payload and
extract the confirmation banner from the response. -/
def remove_message (response : Option ConfirmDoc) (_message_id : Nat) :
    Except PyErr String :=
  get_confirm_message response

/-- Inbox.send_message (inbox.py lines 106-128): after the compose-page priming
GET (whose result is discarded), POST the payload and extract the confirmation
banner from the response. -/
def send_message (response : Option ConfirmDoc) (_user_id : Nat)
    (_title _content : String) : Except PyErr String :=
  get_confirm_message response

/-- The parent `<a>` of an attachment icon: its stripped display text and its
optional `onclick` attribute (`a["onclick"]` raises `KeyError` when absent). -/
structure AttachLink where
  textVal : String
  onclick : Option String
  deriving DecidableEq, Repr

/-- An `img` element whose `src` contains `"filetype"`, as the attachment loop
consumes it: its optional parent link (`find_parent("a")` may be `None`). -/
structure AttachImg where
  parentA : Option AttachLink
  deriving DecidableEq, Repr

/-- One extracted attachment. -/
structure Attachment where
  name : String
  path : String
  deriving DecidableEq, Repr

/-- The message row cell selected by Inbox.get_message: the nested header table
(`row.find("table", recursive=False)`, its `tr` rows as `td` cell texts), the
attachment icons, the optional content div as (stripped text, raw markup), and
the optional stripped text of the `td.left` status cell. -/
structure MsgRow where
  table : Option (List (List String))
  imgs : List AttachImg
  contentDiv : Option (String × String)
  leftTd : Option String
  deriving DecidableEq, Repr

/-- A fetched message-view document: the full page text (`soup.text`) and the
optional row selected by
`select_one("table.stretch.container-message td.message-folders + td")`. -/
structure MsgDoc where
  textAll : String
  row : Option MsgRow
  deriving DecidableEq, Repr

/-- The extracted message record (the dict literal of inbox.py lines 78-89). -/
structure MsgRecord where
  title : String
  url : String
  id : Nat
  folder_id : Nat
  date : String
  user : String
  content : String
  html : String
  read : Bool
  files : List Attachment
  deriving DecidableEq, Repr

/-- The attachment path expression of inbox.py line 75:
`link.find_parent("a")["onclick"].split('"')[1].replace("\\", "").strip("/")`;
indexing `[1]` raises `IndexError` when the onclick text holds no quote. -/
def attachPath (oc : String) : Except PyErr String :=
  match splitSub ['"'] oc.toList with
  | _ :: p :: _ => .ok (pyStripChar '/' (p.filter (· ≠ '\\'))).asString
  | _ => .error .indexError

/-- One iteration of the attachment loop (inbox.py lines 73-76): a missing
parent link raises `AttributeError` at `get_text`, a missing `onclick`
attribute raises `KeyError`, then the path is decoded. -/
def processImg (img : AttachImg) : Except PyErr Attachment :=
  match img.parentA with
  | Option.none => .error .attributeError
  | some a =>
    match a.onclick with
    | Option.none => .error .keyError
    | some oc => (attachPath oc).map (fun p => ⟨a.textVal, p⟩)

/-- Inbox.get_message (inbox.py lines 38-89).  In source order: dereferencing a
failed fetch raises `AttributeError` at `soup.text`; a page whose text contains
either access marker raises the access-denied `ValueError` before any
structural lookup; a missing content row, then a missing nested table, raise
their distinct `ValueError`s; the header is mapped, the attachments collected,
and the final record dereferences the content div and the status cell
(`AttributeError` when either is missing). -/
def get_message (soup : Option MsgDoc) (folder_id message_id : Nat) :
    Except PyErr MsgRecord :=
  match soup with
  | Option.none => .error .attributeError
  | some doc =>
    if pyContains doc.textAll "Brak dostępu" || pyContains doc.textAll "Loguj" then
      .error (.valueError "Access denied. Please check your credentials and permissions.")
    else
      match doc.row with
      | Option.none =>
        .error (.valueError "The specified message content could not be found. Please check the page structure or URL.")
      | some row =>
        match row.table with
        | Option.none =>
          .error (.valueError "No table found under the specified row. Please check the HTML structure.")
        | some tbl =>
          let header := map_table_values tbl ["user", "title", "date"]
          match row.imgs.mapM processImg with
          | .error e => .error e
          | .ok attachments =>
            match row.contentDiv with
            | Option.none => .error .attributeError
            | some (ctext, chtml) =>
              match row.leftTd with
              | Option.none => .error .attributeError
              | some ltext =>
                .ok { title := ((header.lookup "title").getD ""),
                      url := s!"wiadomosci/1/{folder_id}/{message_id}",
                      id := message_id,
                      folder_id := folder_id,
                      date := ((header.lookup "date").getD ""),
                      user := ((header.lookup "user").getD ""),
                      content := ctext,
                      html := chtml,
                      read := !(pyContains ltext "NIE"),
                      files := attachments }

/-- One cell of a folder-listing message row: its stripped text, the `href` of
its first `<a>` descendant (outer `none`: no link, so `find("a")` returns
`None` and subscripting it raises `TypeError`; inner `none`: a link without an
`href` attribute, raising `KeyError`), and its optional `style` attribute. -/
structure InboxCell where
  textVal : String
  aHref : Option (Option String)
  style : Option String
  deriving DecidableEq, Repr

/-- One folder-listing entry. -/
structure InboxMsg where
  id : Int
  user : String
  title : String
  date : String
  read : Bool
  deriving DecidableEq, Repr

/-- Python `xs[i]` on a list: `IndexError` when out of range (no negative
indices are used by this program). -/
def pyIdx {α : Type} (xs : List α) (i : Nat) : Except PyErr α :=
  match xs.get? i with
  | some x => .ok x
  | Option.none => .error .indexError

/-- The body of Inbox.list_inbox's row loop (inbox.py lines 163-170), in the
evaluation order of the dict literal: `children[3].find("a")['href']` is
fetched and split, its fifth path segment converted with `int`, then the user,
title and date cells are read and the bold-style heuristic decides `read`. -/
def processInboxRow (children : List InboxCell) : Except PyErr InboxMsg :=
  match pyIdx children 3 with
  | .error e => .error e
  | .ok c3 =>
    match c3.aHref with
    | Option.none => .error .typeError
    | some Option.none => .error .keyError
    | some (some href) =>
      match pyIdx (splitSub ['/'] href.toList) 4 with
      | .error e => .error e
      | .ok seg =>
        match pyInt seg.asString with
        | .error e => .error e
        | .ok idv =>
          match pyIdx children 2, pyIdx children 4 with
          | .error e, _ => .error e
          | _, .error e => .error e
          | .ok c2, .ok c4 =>
            .ok { id := idv, user := c2.textVal, title := c3.textVal,
                  date := c4.textVal,
                  read := !(pyContains (c2.style.getD "") "font-weight: bold;") }

/-- Inbox.list_inbox (inbox.py lines 149-171): a failed fetch raises
`AttributeError` at `soup.select`; otherwise the selected rows (each given as
its `td` cells) are processed in order, the first raising row aborting the
listing. -/
def list_inbox (soup : Option (List (List InboxCell))) (_folder_id : Nat) :
    Except PyErr (List InboxMsg) :=
  match soup with
  | Option.none => .error .attributeError
  | some rows => rows.mapM processInboxRow

/-- One recipient row as Inbox.list_receivers consumes it: the checkbox input
found by `find("input", {"name": "DoKogo[]"})` (outer `none`: no such input,
so `.get('value')` on `None` raises `AttributeError`; inner: the optional
`value` attribute, `None` when absent) and the optional stripped label text
(`find("label")` returning `None` raises `AttributeError` at `get_text`). -/
structure ReceiverRow where
  input : Option (Option String)
  label : Option String
  deriving DecidableEq, Repr

/-- One extracted recipient. -/
structure Receiver where
  id : Int
  user : String
  deriving DecidableEq, Repr

/-- The body of Inbox.list_receivers' row loop (inbox.py lines 143-146), in
source order: read the input's `value` attribute, read the label text, then
convert the id with `int` (`int(None)` raises `TypeError`). -/
def processReceiverRow (row : ReceiverRow) : Except PyErr Receiver :=
  match row.input with
  | Option.none => .error .attributeError
  | some idAttr =>
    match row.label with
    | Option.none => .error .attributeError
    | some user =>
      match idAttr with
      | Option.none => .error .typeError
      | some idStr =>
        match pyInt idStr with
        | .error e => .error e
        | .ok idv => .ok { id := idv, user := user }

/-- Inbox.list_receivers (inbox.py lines 130-147): a failed fetch raises
`AttributeError` at `response.select`; otherwise the recipient rows are
processed in order. -/
def list_receivers (response : Option (List ReceiverRow)) (_group : Int) :
    Except PyErr (List Receiver) :=
  match response with
  | Option.none => .error .attributeError
  | some rows => rows.mapM processReceiverRow

/-- One announcement block as Inbox.list_announcements consumes it: the
optional stripped `thead` text (`find("thead")` returning `None` raises
`AttributeError` at `get_text`) and its `td` cell texts. -/
structure AnnRow where
  thead : Option String
  tds : List String
  deriving DecidableEq, Repr

/-- One extracted announcement. -/
structure Announcement where
  title : String
  user : String
  date : String
  content : String
  deriving DecidableEq, Repr

/-- The body of Inbox.list_announcements' loop (inbox.py lines 184-190), in
the evaluation order of the dict literal: the heading text, then the second,
third and fourth cells (`IndexError` when fewer `td` cells exist). -/
def processAnnRow (row : AnnRow) : Except PyErr Announcement :=
  match row.thead with
  | Option.none => .error .attributeError
  | some title =>
    match pyIdx row.tds 1 with
    | .error e => .error e
    | .ok u =>
      match pyIdx row.tds 2 with
      | .error e => .error e
      | .ok d =>
        match pyIdx row.tds 3 with
        | .error e => .error e
        | .ok c => .ok { title := title, user := u, date := d, content := c }

/-- Inbox.list_announcements (inbox.py lines 173-191): a failed fetch raises
`AttributeError` at `soup.select`; otherwise the announcement blocks are
processed in order. -/
def list_announcements (soup : Option (List AnnRow)) :
    Except PyErr (List Announcement) :=
  match soup with
  | Option.none => .error .attributeError
  | some rows => rows.mapM processAnnRow

/-- A concrete absence detail table lacking the category row: exactly the
seven remaining label/value rows, in the order the portal renders the fields
(type, date, subject, lesson hour, teacher, trip, added by). -/
def categoryMissingTable : List (List String) :=
  [["Rodzaj", "nieobecnosc"], ["Data", "2024-01-10"], ["Przedmiot", "Matematyka"],
   ["Godzina lekcyjna", "3"], ["Nauczyciel", "Jan Kowalski"],
   ["Czy wycieczka", "Nie"], ["Dodal", "Sekretariat"]]

theorem lookup_tDictInsert (d : List (String × TVal)) (k q : String) (v : TVal) :
    List.lookup q (tDictInsert d k v) =
      if q = k then some v else List.lookup q d := by
  induction d with
  | nil =>
    by_cases hq : q = k
    · subst hq
      simp [tDictInsert, List.lookup]
    · have hb : (q == k) = false := by simp [hq]
      simp [tDictInsert, List.lookup, hb, hq]
  | cons hd tl ih =>
    obtain ⟨k', v'⟩ := hd
    by_cases hk : k' = k
    · subst hk
      by_cases hq : q = k'
      · subst hq
        simp [tDictInsert, List.lookup]
      · have hb : (q == k') = false := by simp [hq]
        simp [tDictInsert, List.lookup, hb, hq]
    · by_cases hq : q = k'
      · subst hq
        simp [tDictInsert, hk, List.lookup]
      · have hb : (q == k') = false := by simp [hq]
        simp [tDictInsert, hk, List.lookup, hb, ih]

theorem lookup_tMapRows (pairs : List (List String × String))
    (acc : List (String × TVal)) (k : String)
    (h : k ∉ pairs.map Prod.snd) :
    List.lookup k (tMapRows pairs acc) = List.lookup k acc := by
  induction pairs generalizing acc with
  | nil => rfl
  | cons hd tl ih =>
    obtain ⟨row, key⟩ := hd
    simp only [List.map_cons, List.mem_cons] at h
    push_neg at h
    rw [tMapRows, ih _ h.2, lookup_tDictInsert, if_neg h.1]

theorem mem_tDictInsert (d : List (String × TVal)) (k : String) (v : TVal)
    (p : String × TVal) (h : p ∈ tDictInsert d k v) : p.1 = k ∨ p ∈ d := by
  induction d with
  | nil =>
    simp [tDictInsert] at h
    left
    simp [h]
  | cons hd tl ih =>
    obtain ⟨k', v'⟩ := hd
    by_cases hk : k' = k
    · subst hk
      simp [tDictInsert] at h
      rcases h with h | h
      · left
        simp [h]
      · right
        exact List.mem_cons_of_mem _ h
    · simp [tDictInsert, hk] at h
      rcases h with h | h
      · right
        simp [h]
      · rcases ih h with h1 | h1
        · left
          exact h1
        · right
          exact List.mem_cons_of_mem _ h1

theorem mem_tMapRows (pairs : List (List String × String))
    (acc : List (String × TVal)) (p : String × TVal)
    (h : p ∈ tMapRows pairs acc) : p.1 ∈ pairs.map Prod.snd ∨ p ∈ acc := by
  induction pairs generalizing acc with
  | nil => right; exact h
  | cons hd tl ih =>
    obtain ⟨row, key⟩ := hd
    rw [tMapRows] at h
    rcases ih _ h with h1 | h1
    · left
      exact List.mem_cons_of_mem _ h1
    · rcases mem_tDictInsert _ _ _ _ h1 with h2 | h2
      · left
        simp [h2]
      · right
        exact h2

theorem mem_tAllNone (ks : List String) (acc : List (String × TVal))
    (p : String × TVal) (h : p ∈ tAllNone ks acc) : p.1 ∈ ks ∨ p ∈ acc := by
  induction ks generalizing acc with
  | nil => right; exact h
  | cons hd tl ih =>
    rw [tAllNone] at h
    rcases ih _ h with h1 | h1
    · left
      exact List.mem_cons_of_mem _ h1
    · rcases mem_tDictInsert _ _ _ _ h1 with h2 | h2
      · left
        simp [h2]
      · right
        exact h2

theorem lookup_tAllNone (ks : List String) (acc : List (String × TVal))
    (k : String) :
    List.lookup k (tAllNone ks acc) =
      if k ∈ ks then some TVal.none else List.lookup k acc := by
  induction ks generalizing acc with
  | nil => simp [tAllNone]
  | cons hd tl ih =>
    rw [tAllNone, ih, lookup_tDictInsert]
    by_cases h1 : k ∈ tl
    · simp [h1]
    · by_cases h2 : k = hd <;> simp [h1, h2]

theorem map_snd_zip_take {α β : Type} (as : List α) (bs : List β) :
    (as.zip bs).map Prod.snd = bs.take as.length := by
  induction as generalizing bs with
  | nil => simp
  | cons a as ih =>
    cases bs with
    | nil => simp
    | cons b bs => simp [ih]

theorem not_mem_take_of_mem_drop {α : Type} (l : List α) (n : Nat) (a : α)
    (hnd : l.Nodup) (h : a ∈ l.drop n) : a ∉ l.take n := by
  intro hmem
  have hsplit : l.take n ++ l.drop n = l := l.take_append_drop n
  rw [← hsplit, List.nodup_append] at hnd
  exact hnd.2.2 hmem h

/-- C1 counterexample: with one table row and two requested field names, the
strict positional mapper returns a dictionary in which the extra field name
`"k2"` is not present at all — in particular it is not mapped to the absent
marker `None`, contrary to the claim. -/
theorem table_mapper_extra_key_has_no_absent_marker :
    table_mapper (some [["Rodzaj", "spr"]]) ["k1", "k2"] = [("k1", TVal.str "spr")]
    ∧ ("k2", TVal.none) ∉ table_mapper (some [["Rodzaj", "spr"]]) ["k1", "k2"]
    ∧ List.lookup "k2" (table_mapper (some [["Rodzaj", "spr"]]) ["k1", "k2"]) =
        Option.none := by
  refine ⟨by decide, ?_, by decide⟩
  decide

/-- C1 amended: for every parsed document and every duplicate-free field-name
list whose length exceeds the number of rows in the selected table, the strict
positional mapper Absence.table_mapper omits each extra field name from its
result dictionary entirely (the zip truncates to the row count), rather than
mapping it to the absent marker; the mapper never raises. -/
theorem table_mapper_extra_keys_dropped (rows : List (List String))
    (keys : List String) (hnd : keys.Nodup) (k : String)
    (hk : k ∈ keys.drop rows.length) :
    List.lookup k (table_mapper (some rows) keys) = Option.none := by
  rw [table_mapper, lookup_tMapRows]
  · rfl
  · rw [map_snd_zip_take]
    exact not_mem_take_of_mem_drop keys rows.length k hnd hk

/-- Witness for the amended C1 theorem at a concrete one-row table. -/
theorem table_mapper_extra_keys_dropped_witness :
    List.lookup "w2" (table_mapper (some [["Rodzaj", "x"]]) ["w1", "w2"]) =
      Option.none :=
  table_mapper_extra_keys_dropped [["Rodzaj", "x"]] ["w1", "w2"] (by decide)
    "w2" (by decide)

/-- C3 counterexample: with a first row of fewer than two cells, the generic
key-list mapper Librus.map_table_values does not map that row's field `"k1"`
to an absent marker — it drops the row, so `"k1"` receives the second row's
value and `"k2"` is not present at all, contrary to the claimed positional
degradation. -/
theorem map_table_values_short_row_shifts_pairing :
    map_table_values [["tylko"], ["Label", "v2"]] ["k1", "k2"] = [("k1", "v2")]
    ∧ List.lookup "k2" (map_table_values [["tylko"], ["Label", "v2"]] ["k1", "k2"]) =
        Option.none := by
  exact ⟨by decide, by decide⟩

/-- C3 amended: for every parsed document and key list, the generic key-list
mapper drops every table row having fewer than two cells before the
key-to-row pairing: prepending such a row leaves the result unchanged, so the
remaining rows shift up to earlier keys and no absent marker is recorded. -/
theorem map_table_values_short_row_dropped (r : List String)
    (rows : List (List String)) (keys : List String)
    (h : hasSecondCell r = false) :
    map_table_values (r :: rows) keys = map_table_values rows keys := by
  simp [map_table_values, List.filter_cons, h]

/-- Witness for the amended C3 theorem at a concrete short row. -/
theorem map_table_values_short_row_dropped_witness :
    hasSecondCell ["tylko"] = false
    ∧ map_table_values [["tylko"], ["L", "w"]] ["q1"] =
        map_table_values [["L", "w"]] ["q1"] :=
  ⟨by decide, map_table_values_short_row_dropped ["tylko"] [["L", "w"]] ["q1"] (by decide)⟩

/-- C10: the strict positional mapper Absence.table_mapper is total by
construction (every operation it performs is non-raising, so it is embedded as
a plain function into dictionaries); every key of the returned dictionary is
drawn from the supplied key list, and when the table is not found the result
binds exactly the supplied keys, all to the absent marker. -/
theorem table_mapper_total_keys_subset (table : Option (List (List String)))
    (keys : List String) :
    (∀ p ∈ table_mapper table keys, p.1 ∈ keys)
    ∧ (∀ k : String, List.lookup k (table_mapper Option.none keys) =
        if k ∈ keys then some TVal.none else Option.none) := by
  constructor
  · intro p hp
    cases table with
    | none =>
      rcases mem_tAllNone _ _ _ hp with h | h
      · exact h
      · cases h
    | some rows =>
      rcases mem_tMapRows _ _ _ hp with h | h
      · rw [map_snd_zip_take] at h
        exact List.mem_of_mem_take h
      · cases h
  · intro k
    rw [table_mapper, lookup_tAllNone]
    by_cases h : k ∈ keys <;> simp [h]

/-- Witness for the C10 theorem: a concrete key drawn from the key list, and
the all-absent dictionary for a missing table. -/
theorem table_mapper_total_keys_subset_witness :
    ("z1" ∈ (["z1", "z2"] : List String))
    ∧ List.lookup "z1" (table_mapper Option.none ["z1", "z2"]) = some TVal.none := by
  constructor
  · exact (table_mapper_total_keys_subset (some [["a", "b"]]) ["z1", "z2"]).1
      ("z1", TVal.str "b") (by decide)
  · have h := (table_mapper_total_keys_subset Option.none ["z1", "z2"]).2 "z1"
    simpa using h

/-- C2 counterexample: on an absence detail page whose table lacks the
category row (seven well-formed label/value rows), the full 8-field request
does not trigger the fallback: `zip` silently truncates, no mapped value is
the absent marker, and get_absence returns a 7-field result that still
contains `category` (bound to the date row's value, every field shifted one
row up) and lacks `added_by` — contrary to the claimed fallback firing and
`category` being absent. -/
theorem get_absence_missing_category_row_no_fallback :
    get_absence (some (some categoryMissingTable)) =
      some [("type", TVal.str "nieobecnosc"), ("category", TVal.str "2024-01-10"),
            ("date", TVal.str "Matematyka"), ("subject", TVal.str "3"),
            ("lesson_hour", TVal.str "Jan Kowalski"), ("teacher", TVal.str "Nie"),
            ("trip", TVal.bool false)]
    ∧ List.lookup "category" ((get_absence (some (some categoryMissingTable))).getD [])
        = some (TVal.str "2024-01-10")
    ∧ List.lookup "added_by" ((get_absence (some (some categoryMissingTable))).getD [])
        = Option.none := by
  refine ⟨by decide, by decide, by decide⟩

/-- C2 amended: for every absence detail page whose table lacks the category
row — i.e. the selected table consists of exactly the seven remaining field
rows, each with a label cell and a value cell — get_absence with the full
8-field list does not trigger the one-shot fallback (the zip truncation drops
the surplus field name instead of producing an absent value).  The result has
seven fields: it still contains `category`, every value is shifted one row up
from its intended field, `added_by` is missing, and `trip` is coerced to a
boolean from the seventh row's value.  The fallback fires only when some
zipped row lacks a second cell. -/
theorem get_absence_seven_full_rows_truncates (a1 b1 a2 b2 a3 b3 a4 b4 a5 b5 a6 b6 a7 b7 : String)
    (t1 t2 t3 t4 t5 t6 t7 : List String) :
    get_absence (some (some [a1 :: b1 :: t1, a2 :: b2 :: t2, a3 :: b3 :: t3,
        a4 :: b4 :: t4, a5 :: b5 :: t5, a6 :: b6 :: t6, a7 :: b7 :: t7])) =
      some [("type", TVal.str (pyStrip b1)), ("category", TVal.str (pyStrip b2)),
            ("date", TVal.str (pyStrip b3)), ("subject", TVal.str (pyStrip b4)),
            ("lesson_hour", TVal.str (pyStrip b5)), ("teacher", TVal.str (pyStrip b6)),
            ("trip", TVal.bool (make_boolean (TVal.str (pyStrip b7))))] := by
  rfl

theorem splitFirstChar_eq_none_iff (c : Char) (s : List Char) :
    splitFirstChar c s = Option.none ↔ c ∉ s := by
  induction s with
  | nil => simp [splitFirstChar]
  | cons hd tl ih =>
    by_cases h : hd = c
    · subst h
      simp [splitFirstChar]
    · simp [splitFirstChar, h, Ne.symm h]
      cases htl : splitFirstChar c tl with
      | none => simpa [htl] using ih
      | some p => simpa [htl] using ih

theorem parseTitleGo_isOk_iff (ps : List (List Char))
    (acc : List (String × String)) :
    (parseTitleGo ps acc).isOk = true ↔ ∀ p ∈ ps, ':' ∈ p := by
  induction ps generalizing acc with
  | nil => simp [parseTitleGo, Except.isOk, Except.toBool]
  | cons hd tl ih =>
    cases hsp : splitFirstChar ':' hd with
    | none =>
      have hni : ':' ∉ hd := (splitFirstChar_eq_none_iff ':' hd).mp hsp
      simp [parseTitleGo, hsp, Except.isOk, Except.toBool, hni]
    | some p =>
      have hi : ':' ∈ hd := by
        by_contra hni
        rw [(splitFirstChar_eq_none_iff ':' hd).mpr hni] at hsp
        cases hsp
      obtain ⟨k, v⟩ := p
      simp [parseTitleGo, hsp, ih, hi]

/-- C5: Grade.parse_title splits its input on the literal marker
`"<br />"` and splits each segment on its first colon into a trimmed key and
value; it succeeds exactly when every segment contains a colon (so it raises
whenever some segment contains none), and on the spec's concrete example it
returns the claimed mapping. -/
theorem parse_title_colon_spec (title : String) :
    ((parse_title title).isOk = true ↔
      ∀ p ∈ splitSub "<br />".toList title.toList, ':' ∈ p)
    ∧ parse_title "Key: Value<br />Another Key: Another Value" =
        .ok [("Key", "Value"), ("Another Key", "Another Value")] := by
  constructor
  · exact parseTitleGo_isOk_iff (splitSub "<br />".toList title.toList) []
  · decide

/-- Witness for the C5 theorem: on a title whose single segment holds a colon,
the success direction applies concretely. -/
theorem parse_title_colon_spec_witness :
    (parse_title "Ocena: 5").isOk = true :=
  (parse_title_colon_spec "Ocena: 5").1.mpr (by decide)

theorem parser_ok_grades_nonempty (rows : List GradeRow)
    (out : List GradeRecord) (h : parser rows = .ok out) :
    ∀ rec ∈ out, rec.grades ≠ [] := by
  induction rows generalizing out with
  | nil =>
    rw [parser] at h
    cases h
    simp
  | cons row rest ih =>
    rw [parser] at h
    cases hsubj : row.subjectCell with
    | none =>
      rw [hsubj] at h
      exact ih out h
    | some subj =>
      rw [hsubj] at h
      cases hmap : (row.gradeSpans.filter (fun g => g.truthy)).mapM process_grade with
      | error e => rw [hmap] at h; cases h
      | ok grades =>
        rw [hmap] at h
        cases hrest : parser rest with
        | error e => rw [hrest] at h; cases h
        | ok tailRecs =>
          rw [hrest] at h
          cases h
          cases hemp : grades.isEmpty with
          | true =>
            simp [hemp]
            exact ih tailRecs hrest
          | false =>
            simp [hemp]
            constructor
            · simpa using List.isEmpty_eq_false.mp hemp
            · exact ih tailRecs hrest

/-- C4: in Grade.parser, a subject row whose grade-badge selection yields zero
grade elements contributes nothing to the output (the whole row vanishes from
the parse), and consequently no record with an empty grades list ever appears
in a successful result of the parser (hence of get_grades). -/
theorem grade_parser_skips_zero_grade_rows :
    (∀ (row : GradeRow) (rest : List GradeRow), row.gradeSpans = [] →
      parser (row :: rest) = parser rest)
    ∧ (∀ (rows : List GradeRow) (out : List GradeRecord), parser rows = .ok out →
      ∀ rec ∈ out, rec.grades ≠ []) := by
  constructor
  · intro row rest h
    cases hsubj : row.subjectCell with
    | none => rw [parser, hsubj]
    | some subj =>
      rw [parser, hsubj, h]
      cases hrest : parser rest with
      | error e => rfl
      | ok tailRecs => rfl
  · exact parser_ok_grades_nonempty

/-- Witness for the C4 theorem: a concrete zero-badge row vanishes, and a
record from a concrete successful parse has a non-empty grade list. -/
theorem grade_parser_skips_zero_grade_rows_witness :
    parser [⟨some "Fizyka", []⟩] = parser []
    ∧ (⟨"Matematyka", [⟨"5", [("Kategoria", "test")]⟩]⟩ : GradeRecord).grades ≠ [] := by
  constructor
  · exact grade_parser_skips_zero_grade_rows.1 ⟨some "Fizyka", []⟩ [] rfl
  · exact grade_parser_skips_zero_grade_rows.2
      [⟨some "Matematyka", [⟨"5", some "Kategoria: test", true⟩]⟩]
      [⟨"Matematyka", [⟨"5", [("Kategoria", "test")]⟩]⟩] (by decide)
      ⟨"Matematyka", [⟨"5", [("Kategoria", "test")]⟩]⟩ (by decide)

/-- C6: for every fetched message page whose text contains the substring
`"Loguj"` (or `"Brak dostępu"`), Inbox.get_message fails with the access-denied
ValueError regardless of the rest of the page content — in particular before
any structural extraction: the error is the same even when the content row,
nested table or attachment structure is entirely absent. -/
theorem get_message_access_check_first (doc : MsgDoc) (folder_id message_id : Nat)
    (h : pyContains doc.textAll "Loguj" = true
      ∨ pyContains doc.textAll "Brak dostępu" = true) :
    get_message (some doc) folder_id message_id =
      .error (.valueError "Access denied. Please check your credentials and permissions.") := by
  rcases h with h | h <;> simp [get_message, h]

/-- Witness for the C6 theorem: a page containing `"Loguj"` with no message
structure at all still yields exactly the access-denied error. -/
theorem get_message_access_check_first_witness :
    get_message (some ⟨"Prosze Loguj sie", Option.none⟩) 1 5 =
      .error (.valueError "Access denied. Please check your credentials and permissions.") :=
  get_message_access_check_first ⟨"Prosze Loguj sie", Option.none⟩ 1 5
    (Or.inl (by decide))

/-- C7: the result of Librus.get_file is the fetched body of the redirect
target exactly when the response carries a `Location` header whose URL
contains `"GetFile"`; any other redirect, and any response without a redirect,
yields `None`. -/
theorem get_file_getfile_allowlist {β : Type} (fetchContent : String → β)
    (response : HttpResponse) (r : β) :
    get_file fetchContent response = some r ↔
      ∃ url, response.location = some url ∧ pyContains url "GetFile" = true
        ∧ r = fetchContent url := by
  cases hloc : response.location with
  | none => simp [get_file, handle_redirects, hloc]
  | some url =>
    cases hget : pyContains url "GetFile" with
    | false => simp [get_file, handle_redirects, hloc, hget]
    | true =>
      simp [get_file, handle_redirects, hloc, hget]
      constructor
      · intro h
        exact h.symm
      · intro h
        exact h.symm

/-- Witness for the C7 theorem: a concrete allow-listed redirect is followed. -/
theorem get_file_getfile_allowlist_witness :
    get_file (fun _ => ([7] : List Nat)) ⟨some "x/GetFile/9"⟩ = some [7] :=
  (get_file_getfile_allowlist (fun _ => ([7] : List Nat)) ⟨some "x/GetFile/9"⟩ [7]).mpr
    ⟨"x/GetFile/9", rfl, by decide, rfl⟩

/-- C8: when the transport returns a null result, the Inbox operations
get_message, list_inbox, list_receivers and list_announcements dereference the
null document and fail with AttributeError rather than returning null or an
empty result — unlike Absence.get_absence (which checks for null and returns
None) and Grade.get_grades (which checks for null and returns the empty
list). -/
theorem inbox_null_document_attribute_error (folder_id message_id : Nat)
    (grp : Int) :
    get_message Option.none folder_id message_id = .error .attributeError
    ∧ list_inbox Option.none folder_id = .error .attributeError
    ∧ list_receivers Option.none grp = .error .attributeError
    ∧ list_announcements Option.none = .error .attributeError
    ∧ get_absence Option.none = Option.none
    ∧ get_grades Option.none = .ok [] :=
  ⟨rfl, rfl, rfl, rfl, rfl, rfl⟩

/-- C9: in Inbox._get_confirm_message, an entirely absent confirmation banner
surfaces as AttributeError (dereferencing the missing node), never as the
explicit "No confirmation message found" exception; that explicit exception
fires exactly when the banner element exists but its text is empty. -/
theorem confirm_message_error_taxonomy :
    (∀ d : ConfirmDoc, d.banner = Option.none →
      get_confirm_message (some d) = .error .attributeError)
    ∧ (∀ (d : ConfirmDoc) (t : String), d.banner = some t →
      (get_confirm_message (some d) =
          .error (.exception "No confirmation message found") ↔ t = "")) := by
  constructor
  · intro d h
    simp [get_confirm_message, h]
  · intro d t h
    by_cases ht : t = "" <;> simp [get_confirm_message, h, ht]

/-- Witness for the C9 theorem: the two error kinds at concrete documents. -/
theorem confirm_message_error_taxonomy_witness :
    get_confirm_message (some ⟨Option.none⟩) = .error .attributeError
    ∧ get_confirm_message (some ⟨some ""⟩) =
        .error (.exception "No confirmation message found") :=
  ⟨confirm_message_error_taxonomy.1 ⟨Option.none⟩ rfl,
   (confirm_message_error_taxonomy.2 ⟨some ""⟩ "" rfl).mpr rfl⟩
